import Mathlib

/-!
Verification of the agent-orchestration core of the salesforce_mcp_server
repository: the schema-sanitization layer, the argument normalizer, the
tool-dispatch failure/escalation policy of the orchestration loop, the
dynamic capability synthesizer, and the CRM-connection guard of the
example tool handler.  Each Python function of the source is embedded as
an executable Lean definition; Python exceptions are modelled with
`Except String`, Python `dict`s as ordered association lists, and the
process-wide mutable structures (conversation failure counters, the tool
registry) by explicit state passing.
-/

/-! ## JSON values

Model of the Python JSON-like dictionaries that `model_json_schema()`
yields and that `_sanitize_schema` (src/app/host/orchestrator.py) mutates:
`obj` is an insertion-ordered Python `dict`, `arr` a `list`. -/

inductive JSON where
  | null : JSON
  | bool : Bool → JSON
  | num : Int → JSON
  | str : String → JSON
  | arr : List JSON → JSON
  | obj : List (String × JSON) → JSON

/-! ## Python `str.upper` / `str.lower`

`_sanitize_schema` calls `schema['type'].upper()`; the tool-result
classifier calls `tool_result_str.lower()`.  We model them on the ASCII
letters (the only characters the schemas and the classifier substrings
involve) through an explicit letter table, so that idempotence facts are
provable without reasoning about `Char.ofNat`. -/

def lowerUpperTable : List (Char × Char) :=
  [('a', 'A'), ('b', 'B'), ('c', 'C'), ('d', 'D'), ('e', 'E'), ('f', 'F'),
   ('g', 'G'), ('h', 'H'), ('i', 'I'), ('j', 'J'), ('k', 'K'), ('l', 'L'),
   ('m', 'M'), ('n', 'N'), ('o', 'O'), ('p', 'P'), ('q', 'Q'), ('r', 'R'),
   ('s', 'S'), ('t', 'T'), ('u', 'U'), ('v', 'V'), ('w', 'W'), ('x', 'X'),
   ('y', 'Y'), ('z', 'Z')]

def charUpper (c : Char) : Char := (lowerUpperTable.lookup c).getD c

def charLower (c : Char) : Char :=
  ((lowerUpperTable.map (fun p => (p.2, p.1))).lookup c).getD c

def strUpper (s : String) : String := String.mk (s.data.map charUpper)

def strLower (s : String) : String := String.mk (s.data.map charLower)

/-! ## `_sanitize_schema` (src/app/host/orchestrator.py, lines 42-75)

The Python function mutates a schema dict in place and returns it; the
pure embedding threads the value.  Phase order follows the source: first
the recursion into dict values and list items (performed during the key
iteration, before any key is popped), then popping the metadata keys
`title` / `default` / `additionalProperties`, then the `anyOf` collapse,
then uppercasing a string-valued `type`.  A Python exception raised
during the `anyOf` scan (`item.get` on a non-dict, iterating a
non-iterable) is an `Except.error`. -/

def bannedKey (k : String) : Bool :=
  k == "title" || k == "default" || k == "additionalProperties"

/-- Python `schema.pop(k)` on a dict (unique keys): remove the entry. -/
def removeKey (k : String) (fields : List (String × JSON)) : List (String × JSON) :=
  fields.filter (fun kv => kv.1 != k)

/-- The merge loop `for k, v in non_null_schema.items(): if k not in schema: schema[k] = v`;
new keys are appended in order at the end of the dict. -/
def mergeBranch (fields : List (String × JSON)) : List (String × JSON) → List (String × JSON)
  | [] => fields
  | (k, v) :: rest =>
    if (fields.lookup k).isSome then mergeBranch fields rest
    else mergeBranch (fields ++ [(k, v)]) rest

/-- `item.get('type')` equals the Python string `'null'`. -/
def isNullTag (v : Option JSON) : Bool :=
  match v with
  | some (.str s) => s == "null"
  | _ => false

/-- Python type name of a JSON value, for exception messages. -/
def pyTypeName : JSON → String
  | .null => "NoneType"
  | .bool _ => "bool"
  | .num _ => "int"
  | .str _ => "str"
  | .arr _ => "list"
  | .obj _ => "dict"

/-- The scan `next((item for item in schema['anyOf'] if item.get('type') != 'null'), None)`
over the items of an `anyOf` list.  `item.get` on a non-dict item raises
`AttributeError`. -/
def scanItems : List JSON → Except String (Option (List (String × JSON)))
  | [] => .ok none
  | .obj bf :: rest =>
    if isNullTag (bf.lookup "type") then scanItems rest else .ok (some bf)
  | item :: _ =>
    .error ("AttributeError: '" ++ pyTypeName item ++ "' object has no attribute 'get'")

/-- The same scan applied to the raw `schema['anyOf']` value: iterating a
dict yields its keys (strings), iterating a string yields characters, and
`None`/booleans/numbers are not iterable. -/
def scanAnyOf : JSON → Except String (Option (List (String × JSON)))
  | .arr items => scanItems items
  | .obj [] => .ok none
  | .obj (_ :: _) => .error "AttributeError: 'str' object has no attribute 'get'"
  | .str s =>
    if s == "" then .ok none
    else .error "AttributeError: 'str' object has no attribute 'get'"
  | v => .error ("TypeError: '" ++ pyTypeName v ++ "' object is not iterable")

/-- Lines 60-66: if `'anyOf' in schema`, pick the first branch whose
`type` tag differs from `'null'`, merge its missing fields into the
schema, and pop `'anyOf'` (the pop happens whether or not a branch was
selected). -/
def collapseAnyOf (fields : List (String × JSON)) : Except String (List (String × JSON)) :=
  match fields.lookup "anyOf" with
  | none => .ok fields
  | some v =>
    match scanAnyOf v with
    | .error e => .error e
    | .ok none => .ok (removeKey "anyOf" fields)
    | .ok (some branch) => .ok (removeKey "anyOf" (mergeBranch fields branch))

/-- Lines 68-69: `if 'type' in schema and isinstance(schema.get('type'), str):
schema['type'] = schema['type'].upper()`. -/
def upperTypeFields (fields : List (String × JSON)) : List (String × JSON) :=
  match fields.lookup "type" with
  | some (.str s) =>
    fields.map (fun kv => if kv.1 = "type" then (kv.1, .str (strUpper s)) else kv)
  | _ => fields

mutual

def sanitize_schema : JSON → Except String JSON
  | .obj fields =>
    match sanitizeFields fields with
    | .error e => .error e
    | .ok fields1 =>
      let fields2 := fields1.filter (fun kv => !bannedKey kv.1)
      match collapseAnyOf fields2 with
      | .error e => .error e
      | .ok fields3 => .ok (.obj (upperTypeFields fields3))
  | .arr items =>
    match sanitizeItems items with
    | .error e => .error e
    | .ok items1 => .ok (.arr items1)
  | v => .ok v

def sanitizeFields : List (String × JSON) → Except String (List (String × JSON))
  | [] => .ok []
  | (k, v) :: rest =>
    match sanitize_schema v with
    | .error e => .error e
    | .ok v1 =>
      match sanitizeFields rest with
      | .error e => .error e
      | .ok rest1 => .ok ((k, v1) :: rest1)

def sanitizeItems : List JSON → Except String (List JSON)
  | [] => .ok []
  | x :: rest =>
    match sanitize_schema x with
    | .error e => .error e
    | .ok x1 =>
      match sanitizeItems rest with
      | .error e => .error e
      | .ok rest1 => .ok (x1 :: rest1)

end

example : sanitize_schema (.obj [("title", .str "T"), ("type", .str "string")]) =
    .ok (.obj [("type", .str "STRING")]) := rfl

example : sanitize_schema
    (.obj [("anyOf", .arr [.obj [("type", .str "null")]])]) =
    .ok (.obj [("type", .str "NULL")]) := rfl

example : sanitize_schema
    (.obj [("anyOf", .arr [.obj [("type", .str "string")], .obj [("type", .str "null")]]),
           ("default", .null)]) =
    .ok (.obj [("type", .str "STRING")]) := rfl

example : sanitize_schema (.obj [("anyOf", .arr [.num 5])]) =
    .error "AttributeError: 'int' object has no attribute 'get'" := rfl

/-! ## Association-list lemmas -/

theorem lookup_eq_none_of_ne {α β : Type} [BEq α] [LawfulBEq α] (a : α)
    (l : List (α × β)) (h : ∀ kv ∈ l, kv.1 ≠ a) : l.lookup a = none := by
  induction l with
  | nil => rfl
  | cons kv tl ih =>
    obtain ⟨k, v⟩ := kv
    have hk : k ≠ a := h (k, v) (List.mem_cons_self _ _)
    have hak : (a == k) = false := by
      cases hbe : a == k with
      | true => exact absurd (eq_of_beq hbe).symm hk
      | false => rfl
    simp only [List.lookup, hak]
    exact ih (fun kv hkv => h kv (List.mem_cons_of_mem _ hkv))

theorem forall_ne_of_lookup_eq_none {α β : Type} [BEq α] [LawfulBEq α] (a : α)
    (l : List (α × β)) (h : l.lookup a = none) : ∀ kv ∈ l, kv.1 ≠ a := by
  induction l with
  | nil => intro kv hkv; cases hkv
  | cons kv tl ih =>
    obtain ⟨k, v⟩ := kv
    intro kv' hkv'
    cases hak : a == k with
    | true => simp only [List.lookup, hak] at h; cases h
    | false =>
      simp only [List.lookup, hak] at h
      rcases List.mem_cons.mp hkv' with h1 | h1
      · subst h1
        intro hh
        subst hh
        simp at hak
      · exact ih h kv' h1

theorem mem_of_lookup_eq_some {α β : Type} [BEq α] [LawfulBEq α] {a : α}
    {l : List (α × β)} {v : β} (h : l.lookup a = some v) : (a, v) ∈ l := by
  induction l with
  | nil => cases h
  | cons kv tl ih =>
    obtain ⟨k, b⟩ := kv
    cases hak : a == k with
    | true =>
      simp only [List.lookup, hak] at h
      have := eq_of_beq hak
      subst this
      injection h with h
      subst h
      exact List.mem_cons_self _ _
    | false =>
      simp only [List.lookup, hak] at h
      exact List.mem_cons_of_mem _ (ih h)

theorem filter_eq_self_of {α : Type} (p : α → Bool) (l : List α)
    (h : ∀ a ∈ l, p a = true) : l.filter p = l := by
  induction l with
  | nil => rfl
  | cons x tl ih =>
    have hx : p x = true := h x (List.mem_cons_self _ _)
    simp only [List.filter, hx]
    rw [ih (fun a ha => h a (List.mem_cons_of_mem _ ha))]

theorem mem_mergeBranch {kv : String × JSON} :
    ∀ (branch fields : List (String × JSON)), kv ∈ mergeBranch fields branch →
      kv ∈ fields ∨ kv ∈ branch := by
  intro branch
  induction branch with
  | nil => intro fields h; exact Or.inl h
  | cons kv' rest ih =>
    obtain ⟨k, v⟩ := kv'
    intro fields h
    simp only [mergeBranch] at h
    by_cases hk : (fields.lookup k).isSome
    · simp only [hk, if_true] at h
      rcases ih fields h with h1 | h1
      · exact Or.inl h1
      · exact Or.inr (List.mem_cons_of_mem _ h1)
    · simp only [hk, if_false] at h
      rcases ih (fields ++ [(k, v)]) h with h1 | h1
      · rcases List.mem_append.mp h1 with h2 | h2
        · exact Or.inl h2
        · rcases List.mem_singleton.mp h2 with h3
          subst h3
          exact Or.inr (List.mem_cons_self _ _)
      · exact Or.inr (List.mem_cons_of_mem _ h1)

theorem mem_removeKey {kv : String × JSON} {a : String} {l : List (String × JSON)}
    (h : kv ∈ removeKey a l) : kv.1 ≠ a ∧ kv ∈ l := by
  have := List.mem_filter.mp h
  refine ⟨?_, this.1⟩
  have hb := this.2
  simp only [bne_iff_ne, ne_eq] at hb
  exact hb

theorem lookup_removeKey_self (a : String) (l : List (String × JSON)) :
    (removeKey a l).lookup a = none := by
  apply lookup_eq_none_of_ne
  intro kv hkv
  exact (mem_removeKey hkv).1

/-! ## Uppercasing lemmas -/

theorem lookup_upper_eq_none : ∀ p ∈ lowerUpperTable, lowerUpperTable.lookup p.2 = none := by
  decide

theorem charUpper_idem (c : Char) : charUpper (charUpper c) = charUpper c := by
  cases h : lowerUpperTable.lookup c with
  | none =>
    have h1 : charUpper c = c := by unfold charUpper; rw [h]; rfl
    rw [h1, h1]
  | some u =>
    have h1 : charUpper c = u := by unfold charUpper; rw [h]; rfl
    have hmem : (c, u) ∈ lowerUpperTable := mem_of_lookup_eq_some h
    have h2 : lowerUpperTable.lookup u = none := lookup_upper_eq_none (c, u) hmem
    have h3 : charUpper u = u := by unfold charUpper; rw [h2]; rfl
    rw [h1, h3]

theorem strUpper_idem (s : String) : strUpper (strUpper s) = strUpper s := by
  obtain ⟨l⟩ := s
  simp only [strUpper, List.map_map]
  have hfun : charUpper ∘ charUpper = charUpper := funext charUpper_idem
  rw [hfun]

theorem lookup_map_upperType {s : String} :
    ∀ (fs : List (String × JSON)), fs.lookup "type" = some (.str s) →
      (fs.map (fun kv => if kv.1 = "type" then (kv.1, JSON.str (strUpper s)) else kv)).lookup "type"
        = some (.str (strUpper s)) := by
  intro fs
  induction fs with
  | nil => intro h; cases h
  | cons kv tl ih =>
    obtain ⟨k, v⟩ := kv
    intro h
    by_cases hk : k = "type"
    · subst hk
      simp only [List.lookup, beq_self_eq_true] at h
      injection h with h
      subst h
      simp only [List.map, if_pos rfl, List.lookup, beq_self_eq_true]
    · have hbk : ("type" == k) = false := by
        cases hbe : ("type" == k : Bool) with
        | true => exact absurd (eq_of_beq hbe).symm hk
        | false => rfl
      simp only [List.lookup, hbk] at h
      simp only [List.map]
      rw [if_neg hk]
      simp only [List.lookup, hbk]
      exact ih h

theorem upperTypeFields_eq_map {s : String} {gs : List (String × JSON)}
    (hgs : gs.lookup "type" = some (.str s)) :
    upperTypeFields gs
      = gs.map (fun kv => if kv.1 = "type" then (kv.1, JSON.str (strUpper s)) else kv) := by
  unfold upperTypeFields
  rw [hgs]

theorem upperTypeFields_eq_self {gs : List (String × JSON)}
    (hgs : ∀ s, gs.lookup "type" ≠ some (.str s)) : upperTypeFields gs = gs := by
  unfold upperTypeFields
  cases h : gs.lookup "type" with
  | none => rfl
  | some v =>
    cases v with
    | str s => exact absurd h (hgs s)
    | null => rfl
    | bool b => rfl
    | num n => rfl
    | arr xs => rfl
    | obj fs => rfl

theorem upperTypeFields_idem (fs : List (String × JSON)) :
    upperTypeFields (upperTypeFields fs) = upperTypeFields fs := by
  by_cases hstr : ∃ s, fs.lookup "type" = some (.str s)
  · obtain ⟨s, h⟩ := hstr
    have h1 := upperTypeFields_eq_map h
    have h2 : (upperTypeFields fs).lookup "type" = some (.str (strUpper s)) := by
      rw [h1]
      exact lookup_map_upperType fs h
    have h3 := upperTypeFields_eq_map h2
    rw [h3, h1, List.map_map]
    have hfun : (fun kv : String × JSON =>
          if kv.1 = "type" then (kv.1, JSON.str (strUpper (strUpper s))) else kv) ∘
        (fun kv : String × JSON => if kv.1 = "type" then (kv.1, JSON.str (strUpper s)) else kv)
        = (fun kv : String × JSON => if kv.1 = "type" then (kv.1, JSON.str (strUpper s)) else kv) := by
      funext kv
      by_cases hk : kv.1 = "type"
      · simp only [Function.comp_apply, if_pos hk, strUpper_idem]
      · simp only [Function.comp_apply, if_neg hk]
    rw [hfun]
  · have hne : ∀ s, fs.lookup "type" ≠ some (.str s) := fun s hs => hstr ⟨s, hs⟩
    have h1 := upperTypeFields_eq_self hne
    rw [h1]
    exact h1

theorem mem_upperTypeFields {kv : String × JSON} {fs : List (String × JSON)}
    (h : kv ∈ upperTypeFields fs) :
    ∃ kv₀ ∈ fs, kv.1 = kv₀.1 ∧ (kv.2 = kv₀.2 ∨ ∃ s, kv.2 = JSON.str s) := by
  unfold upperTypeFields at h
  cases hl : fs.lookup "type" with
  | none =>
    rw [hl] at h
    exact ⟨kv, h, rfl, Or.inl rfl⟩
  | some v =>
    cases v with
    | str s =>
      rw [hl] at h
      obtain ⟨kv₀, hmem, heq⟩ := List.mem_map.mp h
      by_cases hk : kv₀.1 = "type"
      · rw [if_pos hk] at heq
        subst heq
        exact ⟨kv₀, hmem, hk.symm ▸ rfl, Or.inr ⟨strUpper s, rfl⟩⟩
      · rw [if_neg hk] at heq
        subst heq
        exact ⟨kv₀, hmem, rfl, Or.inl rfl⟩
    | null => rw [hl] at h; exact ⟨kv, h, rfl, Or.inl rfl⟩
    | bool b => rw [hl] at h; exact ⟨kv, h, rfl, Or.inl rfl⟩
    | num n => rw [hl] at h; exact ⟨kv, h, rfl, Or.inl rfl⟩
    | arr xs => rw [hl] at h; exact ⟨kv, h, rfl, Or.inl rfl⟩
    | obj gs => rw [hl] at h; exact ⟨kv, h, rfl, Or.inl rfl⟩

/-! ## Sanitized normal forms

`CleanJSON` characterizes the image of `sanitize_schema`: no metadata
keys, no `anyOf` key, and a string-valued `type` already uppercased (so
that the final uppercase assignment of lines 68-69 leaves the dict
unchanged). -/

mutual

def CleanJSON : JSON → Prop
  | .obj fields => CleanEntries fields ∧ upperTypeFields fields = fields
  | .arr items => CleanItemsP items
  | _ => True

def CleanEntries : List (String × JSON) → Prop
  | [] => True
  | kv :: rest =>
    bannedKey kv.1 = false ∧ kv.1 ≠ "anyOf" ∧ CleanJSON kv.2 ∧ CleanEntries rest

def CleanItemsP : List JSON → Prop
  | [] => True
  | x :: rest => CleanJSON x ∧ CleanItemsP rest

end

/-- Property of each entry of a sanitized dict. -/
def EntryOK (kv : String × JSON) : Prop :=
  bannedKey kv.1 = false ∧ kv.1 ≠ "anyOf" ∧ CleanJSON kv.2

/-- Values-only invariant of the intermediate dict produced by the
recursion phase (keys have not been filtered yet at that point). -/
def ValuesClean : List (String × JSON) → Prop
  | [] => True
  | kv :: rest => CleanJSON kv.2 ∧ ValuesClean rest

theorem cleanEntries_iff (fs : List (String × JSON)) :
    CleanEntries fs ↔ ∀ kv ∈ fs, EntryOK kv := by
  induction fs with
  | nil => simp [CleanEntries]
  | cons kv rest ih =>
    simp only [CleanEntries, List.mem_cons, EntryOK]
    constructor
    · rintro ⟨h1, h2, h3, h4⟩ kv' hkv'
      rcases hkv' with h | h
      · subst h; exact ⟨h1, h2, h3⟩
      · exact ih.mp h4 kv' h
    · intro h
      obtain ⟨h1, h2, h3⟩ := h kv (Or.inl rfl)
      exact ⟨h1, h2, h3, ih.mpr (fun kv' hkv' => h kv' (Or.inr hkv'))⟩

theorem cleanItemsP_iff (xs : List JSON) :
    CleanItemsP xs ↔ ∀ x ∈ xs, CleanJSON x := by
  induction xs with
  | nil => simp [CleanItemsP]
  | cons x rest ih =>
    simp only [CleanItemsP, List.mem_cons]
    constructor
    · rintro ⟨h1, h2⟩ x' hx'
      rcases hx' with h | h
      · subst h; exact h1
      · exact ih.mp h2 x' h
    · intro h
      exact ⟨h x (Or.inl rfl), ih.mpr (fun x' hx' => h x' (Or.inr hx'))⟩

theorem valuesClean_iff (fs : List (String × JSON)) :
    ValuesClean fs ↔ ∀ kv ∈ fs, CleanJSON kv.2 := by
  induction fs with
  | nil => simp [ValuesClean]
  | cons kv rest ih =>
    simp only [ValuesClean, List.mem_cons]
    constructor
    · rintro ⟨h1, h2⟩ kv' hkv'
      rcases hkv' with h | h
      · subst h; exact h1
      · exact ih.mp h2 kv' h
    · intro h
      exact ⟨h kv (Or.inl rfl), ih.mpr (fun kv' hkv' => h kv' (Or.inr hkv'))⟩

/-! ## The `anyOf` scan and collapse preserve cleanliness -/

theorem scanItems_some_mem {items : List JSON} {bf : List (String × JSON)}
    (h : scanItems items = .ok (some bf)) : JSON.obj bf ∈ items := by
  induction items with
  | nil => cases h
  | cons x rest ih =>
    cases x with
    | obj f =>
      by_cases hn : isNullTag (f.lookup "type") = true
      · simp only [scanItems, if_pos hn] at h
        exact List.mem_cons_of_mem _ (ih h)
      · simp only [scanItems, if_neg hn] at h
        injection h with h
        injection h with h
        subst h
        exact List.mem_cons_self _ _
    | null => cases h
    | bool b => cases h
    | num n => cases h
    | str s => cases h
    | arr xs => cases h

theorem scanAnyOf_some {v : JSON} {bf : List (String × JSON)}
    (h : scanAnyOf v = .ok (some bf)) :
    ∃ items, v = .arr items ∧ scanItems items = .ok (some bf) := by
  cases v with
  | arr items => exact ⟨items, rfl, h⟩
  | obj fs =>
    cases fs with
    | nil => cases h
    | cons kv rest => cases h
  | str s =>
    by_cases hs : (s == "") = true
    · simp only [scanAnyOf, if_pos hs] at h
      simp at h
    · simp only [scanAnyOf, if_neg hs] at h
      simp at h
  | null => cases h
  | bool b => cases h
  | num n => cases h

theorem collapseAnyOf_entryOK {fields fields3 : List (String × JSON)}
    (hv : ValuesClean fields) (hb : ∀ kv ∈ fields, bannedKey kv.1 = false)
    (h : collapseAnyOf fields = .ok fields3) :
    ∀ kv ∈ fields3, EntryOK kv := by
  unfold collapseAnyOf at h
  split at h
  · rename_i hl
    injection h with h
    subst h
    intro kv hkv
    exact ⟨hb kv hkv, forall_ne_of_lookup_eq_none _ _ hl kv hkv,
      (valuesClean_iff fields).mp hv kv hkv⟩
  · rename_i v hl
    split at h
    · cases h
    · rename_i hs
      injection h with h
      subst h
      intro kv hkv
      obtain ⟨hne, hmem⟩ := mem_removeKey hkv
      exact ⟨hb kv hmem, hne, (valuesClean_iff fields).mp hv kv hmem⟩
    · rename_i branch hs
      injection h with h
      subst h
      have hvclean : CleanJSON v :=
        (valuesClean_iff fields).mp hv ("anyOf", v) (mem_of_lookup_eq_some hl)
      obtain ⟨items, hvi, hscan⟩ := scanAnyOf_some hs
      subst hvi
      have hitems : CleanItemsP items := hvclean
      have hobjmem : JSON.obj branch ∈ items := scanItems_some_mem hscan
      have hbranch : CleanJSON (JSON.obj branch) :=
        (cleanItemsP_iff items).mp hitems _ hobjmem
      have hbranchEntries : CleanEntries branch := hbranch.1
      intro kv hkv
      obtain ⟨hne, hmem⟩ := mem_removeKey hkv
      rcases mem_mergeBranch branch fields hmem with hm | hm
      · exact ⟨hb kv hm, hne, (valuesClean_iff fields).mp hv kv hm⟩
      · exact (cleanEntries_iff branch).mp hbranchEntries kv hm

/-! ## Sanitization lands in, and fixes, the normal form -/

mutual

theorem sanitize_ok_clean : ∀ (j t : JSON), sanitize_schema j = .ok t → CleanJSON t
  | .obj fields, t, h => by
    simp only [sanitize_schema] at h
    split at h
    · cases h
    · rename_i fields1 h1
      split at h
      · cases h
      · rename_i fields3 h2
        injection h with h
        subst h
        have hvc1 : ValuesClean fields1 := sanitizeFields_ok_values fields fields1 h1
        have hvc2 : ValuesClean (fields1.filter (fun kv => !bannedKey kv.1)) := by
          rw [valuesClean_iff]
          intro kv hkv
          exact (valuesClean_iff fields1).mp hvc1 kv (List.mem_filter.mp hkv).1
        have hb2 : ∀ kv ∈ fields1.filter (fun kv => !bannedKey kv.1),
            bannedKey kv.1 = false := by
          intro kv hkv
          have hb := (List.mem_filter.mp hkv).2
          simpa using hb
        have hOK := collapseAnyOf_entryOK hvc2 hb2 h2
        simp only [CleanJSON]
        refine ⟨?_, upperTypeFields_idem fields3⟩
        rw [cleanEntries_iff]
        intro kv hkv
        obtain ⟨kv₀, hmem0, hfst, hsnd⟩ := mem_upperTypeFields hkv
        obtain ⟨hb0, ha0, hc0⟩ := hOK kv₀ hmem0
        refine ⟨?_, ?_, ?_⟩
        · rw [hfst]; exact hb0
        · rw [hfst]; exact ha0
        · rcases hsnd with h' | ⟨s, h'⟩
          · rw [h']; exact hc0
          · rw [h']; simp [CleanJSON]
  | .arr items, t, h => by
    simp only [sanitize_schema] at h
    split at h
    · cases h
    · rename_i items1 h1
      injection h with h
      subst h
      simp only [CleanJSON]
      exact sanitizeItems_ok_clean items items1 h1
  | .null, t, h => by
    simp only [sanitize_schema] at h
    injection h with h
    subst h
    simp [CleanJSON]
  | .bool b, t, h => by
    simp only [sanitize_schema] at h
    injection h with h
    subst h
    simp [CleanJSON]
  | .num n, t, h => by
    simp only [sanitize_schema] at h
    injection h with h
    subst h
    simp [CleanJSON]
  | .str s, t, h => by
    simp only [sanitize_schema] at h
    injection h with h
    subst h
    simp [CleanJSON]

theorem sanitizeFields_ok_values :
    ∀ (fs gs : List (String × JSON)), sanitizeFields fs = .ok gs → ValuesClean gs
  | [], gs, h => by
    simp only [sanitizeFields] at h
    injection h with h
    subst h
    simp [ValuesClean]
  | (k, v) :: rest, gs, h => by
    simp only [sanitizeFields] at h
    split at h
    · cases h
    · rename_i v1 h1
      split at h
      · cases h
      · rename_i rest1 h2
        injection h with h
        subst h
        simp only [ValuesClean]
        exact ⟨sanitize_ok_clean v v1 h1, sanitizeFields_ok_values rest rest1 h2⟩

theorem sanitizeItems_ok_clean :
    ∀ (xs ys : List JSON), sanitizeItems xs = .ok ys → CleanItemsP ys
  | [], ys, h => by
    simp only [sanitizeItems] at h
    injection h with h
    subst h
    simp [CleanItemsP]
  | x :: rest, ys, h => by
    simp only [sanitizeItems] at h
    split at h
    · cases h
    · rename_i x1 h1
      split at h
      · cases h
      · rename_i rest1 h2
        injection h with h
        subst h
        simp only [CleanItemsP]
        exact ⟨sanitize_ok_clean x x1 h1, sanitizeItems_ok_clean rest rest1 h2⟩

end

mutual

theorem sanitize_clean_fix : ∀ (j : JSON), CleanJSON j → sanitize_schema j = .ok j
  | .obj fields, hc => by
    simp only [CleanJSON] at hc
    obtain ⟨hce, hup⟩ := hc
    have h1 : sanitizeFields fields = .ok fields := sanitizeFields_clean_fix fields hce
    have hforall := (cleanEntries_iff fields).mp hce
    have h2 : fields.filter (fun kv => !bannedKey kv.1) = fields := by
      apply filter_eq_self_of
      intro kv hkv
      have hb := (hforall kv hkv).1
      simp [hb]
    have h3 : collapseAnyOf fields = .ok fields := by
      unfold collapseAnyOf
      rw [lookup_eq_none_of_ne "anyOf" fields (fun kv hkv => (hforall kv hkv).2.1)]
    simp only [sanitize_schema, h1, h2, h3, hup]
  | .arr items, hc => by
    simp only [CleanJSON] at hc
    have h1 := sanitizeItems_clean_fix items hc
    simp only [sanitize_schema, h1]
  | .null, _ => by simp [sanitize_schema]
  | .bool b, _ => by simp [sanitize_schema]
  | .num n, _ => by simp [sanitize_schema]
  | .str s, _ => by simp [sanitize_schema]

theorem sanitizeFields_clean_fix :
    ∀ (fs : List (String × JSON)), CleanEntries fs → sanitizeFields fs = .ok fs
  | [], _ => by simp [sanitizeFields]
  | (k, v) :: rest, hc => by
    simp only [CleanEntries] at hc
    obtain ⟨_, _, h3, h4⟩ := hc
    have hv := sanitize_clean_fix v h3
    have hr := sanitizeFields_clean_fix rest h4
    simp only [sanitizeFields, hv, hr]

theorem sanitizeItems_clean_fix :
    ∀ (xs : List JSON), CleanItemsP xs → sanitizeItems xs = .ok xs
  | [], _ => by simp [sanitizeItems]
  | x :: rest, hc => by
    simp only [CleanItemsP] at hc
    obtain ⟨h1, h2⟩ := hc
    have hx := sanitize_clean_fix x h1
    have hr := sanitizeItems_clean_fix rest h2
    simp only [sanitizeItems, hx, hr]

end

/-! ## Claims C5 and C7 -/

/-- Claim C5: for every parameter schema produced for a capability
descriptor, the dialect-sanitization transformation is idempotent:
applying `_sanitize_schema` twice to a schema yields the same schema as
applying it once (whenever the first application returns at all, the
second returns the same schema unchanged). -/
theorem c5_schema_sanitization_idempotent (schema result : JSON)
    (h : sanitize_schema schema = .ok result) :
    sanitize_schema result = .ok result :=
  sanitize_clean_fix result (sanitize_ok_clean schema result h)

theorem c5_schema_sanitization_idempotent_witness :
    sanitize_schema
        (JSON.obj [("title", .str "t"),
          ("anyOf", .arr [.obj [("type", .str "string")], .obj [("type", .str "null")]])])
      = .ok (JSON.obj [("type", .str "STRING")]) ∧
    sanitize_schema (JSON.obj [("type", .str "STRING")])
      = .ok (JSON.obj [("type", .str "STRING")]) :=
  ⟨rfl,
    c5_schema_sanitization_idempotent
      (JSON.obj [("title", .str "t"),
        ("anyOf", .arr [.obj [("type", .str "string")], .obj [("type", .str "null")]])])
      (JSON.obj [("type", .str "STRING")]) rfl⟩

/-- Claim C7 (counterexample): a field whose `anyOf` union contains no
non-null branch is NOT left untouched: on `{"anyOf": [{"type": "null"}]}`
the code uppercases the branch tag to `"NULL"` before the `!= 'null'`
comparison, therefore selects the null branch as if it were non-null,
merges it, and pops `anyOf`, producing `{"type": "NULL"}` — a changed
schema. -/
theorem c7_counterexample :
    sanitize_schema (JSON.obj [("anyOf", JSON.arr [JSON.obj [("type", JSON.str "null")]])])
      = .ok (JSON.obj [("type", JSON.str "NULL")]) ∧
    JSON.obj [("type", JSON.str "NULL")]
      ≠ JSON.obj [("anyOf", JSON.arr [JSON.obj [("type", JSON.str "null")]])] := by
  refine ⟨rfl, ?_⟩
  intro h
  injection h with h
  injection h with h1 h2
  injection h1 with ha hb
  exact absurd ha (by decide)

theorem scanItems_total_of_objs (items : List JSON)
    (hobj : ∀ i ∈ items, ∃ bf, i = JSON.obj bf) : ∃ r, scanItems items = .ok r := by
  induction items with
  | nil => exact ⟨none, rfl⟩
  | cons x rest ih =>
    obtain ⟨bf, hx⟩ := hobj x (List.mem_cons_self _ _)
    subst hx
    by_cases hn : isNullTag (bf.lookup "type") = true
    · obtain ⟨r, hr⟩ := ih (fun i hi => hobj i (List.mem_cons_of_mem _ hi))
      refine ⟨r, ?_⟩
      simp only [scanItems, if_pos hn]
      exact hr
    · exact ⟨some bf, by simp only [scanItems, if_neg hn]⟩

/-- Claim C7 (amended): during schema sanitization, a field whose `anyOf`
encoding is a list of sub-schemas never causes a failure, but the field
is not left untouched: the `anyOf` key is always removed from it (and,
because branch `type` tags are uppercased before the `!= 'null'`
comparison, a null-typed branch is treated as non-null and merged). -/
theorem c7_anyof_no_failure_but_removed (fields : List (String × JSON)) (items : List JSON)
    (hl : fields.lookup "anyOf" = some (.arr items))
    (hobj : ∀ i ∈ items, ∃ bf, i = JSON.obj bf) :
    ∃ fs, collapseAnyOf fields = .ok fs ∧ fs.lookup "anyOf" = none := by
  obtain ⟨r, hr⟩ := scanItems_total_of_objs items hobj
  cases r with
  | none =>
    refine ⟨removeKey "anyOf" fields, ?_, lookup_removeKey_self _ _⟩
    unfold collapseAnyOf
    rw [hl]
    simp only [scanAnyOf, hr]
  | some branch =>
    refine ⟨removeKey "anyOf" (mergeBranch fields branch), ?_, lookup_removeKey_self _ _⟩
    unfold collapseAnyOf
    rw [hl]
    simp only [scanAnyOf, hr]

theorem c7_anyof_no_failure_but_removed_witness :
    ∃ fs, collapseAnyOf [("anyOf", JSON.arr [JSON.obj [("type", JSON.str "null")]])] = .ok fs ∧
      fs.lookup "anyOf" = none :=
  c7_anyof_no_failure_but_removed _ [JSON.obj [("type", JSON.str "null")]] rfl
    (by
      intro i hi
      rcases List.mem_singleton.mp hi with h
      exact ⟨[("type", JSON.str "null")], h⟩)

/-! ## `_convert_proto_to_dict` (src/app/host/orchestrator.py, lines 17-40)

The provider-specific structured-value tree: protobuf `Struct`,
`ListValue`, and `Value` objects (a `Value` wraps one of the oneof kinds
`null_value`, `number_value`, `string_value`, `bool_value`,
`struct_value`, `list_value`), the `MapComposite` mapping that carries
the top-level call arguments, and any other Python object (`other`),
which the converter must return unchanged.  `vStruct`/`vList` carry the
wrapped `Struct`/`ListValue` payload directly (the code reaches them via
`getattr(obj, kind)` and recurses on the payload). -/

inductive PObj where
  | struct : List (String × PObj) → PObj
  | listv : List PObj → PObj
  | vNull : PObj
  | vNum : Int → PObj
  | vStr : String → PObj
  | vBool : Bool → PObj
  | vStruct : List (String × PObj) → PObj
  | vList : List PObj → PObj
  | mapping : List (String × PObj) → PObj
  | other : String → PObj

/-- Native Python values produced by the conversion: `dict`s, `list`s,
primitives, `None`, and the unchanged unrecognized objects. -/
inductive Py where
  | none : Py
  | num : Int → Py
  | str : String → Py
  | bool : Bool → Py
  | dict : List (String × Py) → Py
  | list : List Py → Py
  | other : String → Py

mutual

def convert_proto_to_dict : PObj → Py
  | .struct fields => .dict (convFields fields)
  | .listv items => .list (convItems items)
  | .vNull => .none
  | .vNum n => .num n
  | .vStr s => .str s
  | .vBool b => .bool b
  | .vStruct fields => .dict (convFields fields)
  | .vList items => .list (convItems items)
  | .mapping fields => .dict (convFields fields)
  | .other t => .other t

def convFields : List (String × PObj) → List (String × Py)
  | [] => []
  | (k, v) :: rest => (k, convert_proto_to_dict v) :: convFields rest

def convItems : List PObj → List Py
  | [] => []
  | x :: rest => convert_proto_to_dict x :: convItems rest

end

/-! ## Spec-side equivalence for C9

`ArgEquiv p q` is written from the specification's words (section 4.4):
`q` is the equivalent native nested structure for the provider tree `p` —
maps become `dict`s entry by entry with keys and order preserved, lists
become `list`s element by element, scalars carry over, the explicit null
marker becomes the host's absence value `None`, and an unrecognized leaf
is returned unchanged. -/

mutual

inductive ArgEquiv : PObj → Py → Prop where
  | nullMarker : ArgEquiv .vNull .none
  | num : ∀ n, ArgEquiv (.vNum n) (.num n)
  | str : ∀ s, ArgEquiv (.vStr s) (.str s)
  | bool : ∀ b, ArgEquiv (.vBool b) (.bool b)
  | struct : ∀ fs gs, ArgEquivFields fs gs → ArgEquiv (.struct fs) (.dict gs)
  | vStruct : ∀ fs gs, ArgEquivFields fs gs → ArgEquiv (.vStruct fs) (.dict gs)
  | mapping : ∀ fs gs, ArgEquivFields fs gs → ArgEquiv (.mapping fs) (.dict gs)
  | listv : ∀ xs ys, ArgEquivItems xs ys → ArgEquiv (.listv xs) (.list ys)
  | vList : ∀ xs ys, ArgEquivItems xs ys → ArgEquiv (.vList xs) (.list ys)
  | unrecognized : ∀ t, ArgEquiv (.other t) (.other t)

/-- Entry-by-entry equivalence of a provider map with a native dict:
same keys, same order, equivalent values. -/
inductive ArgEquivFields : List (String × PObj) → List (String × Py) → Prop where
  | nil : ArgEquivFields [] []
  | cons : ∀ k v q fs gs, ArgEquiv v q → ArgEquivFields fs gs →
      ArgEquivFields ((k, v) :: fs) ((k, q) :: gs)

/-- Element-by-element equivalence of a provider list with a native list. -/
inductive ArgEquivItems : List PObj → List Py → Prop where
  | nil : ArgEquivItems [] []
  | cons : ∀ x y xs ys, ArgEquiv x y → ArgEquivItems xs ys →
      ArgEquivItems (x :: xs) (y :: ys)

end

mutual

theorem argEquiv_conv : ∀ (p : PObj), ArgEquiv p (convert_proto_to_dict p)
  | .struct fields => .struct fields (convFields fields) (argEquiv_convFields fields)
  | .listv items => .listv items (convItems items) (argEquiv_convItems items)
  | .vNull => .nullMarker
  | .vNum n => .num n
  | .vStr s => .str s
  | .vBool b => .bool b
  | .vStruct fields => .vStruct fields (convFields fields) (argEquiv_convFields fields)
  | .vList items => .vList items (convItems items) (argEquiv_convItems items)
  | .mapping fields => .mapping fields (convFields fields) (argEquiv_convFields fields)
  | .other t => .unrecognized t

theorem argEquiv_convFields : ∀ (fs : List (String × PObj)), ArgEquivFields fs (convFields fs)
  | [] => .nil
  | (k, v) :: rest => .cons k v _ rest _ (argEquiv_conv v) (argEquiv_convFields rest)

theorem argEquiv_convItems : ∀ (xs : List PObj), ArgEquivItems xs (convItems xs)
  | [] => .nil
  | x :: rest => .cons x _ rest _ (argEquiv_conv x) (argEquiv_convItems rest)

end

/-- Claim C9: for every structured-value argument tree from the model
(nested key/value maps, ordered lists, scalar leaves, explicit null
markers, at arbitrary nesting depth), argument normalization produces the
equivalent native nested structure of dicts, lists and primitives, maps
each null marker to the host's absence value `None`, and returns any
unrecognized leaf value unchanged rather than failing. -/
theorem c9_argument_normalization (p : PObj) : ArgEquiv p (convert_proto_to_dict p) :=
  argEquiv_conv p

/-! ## Tool dispatch and the failure-escalation policy
(src/app/host/orchestrator.py, `process_user_query`, lines 133-186)

A tool handler either returns a string or raises; the registry
(`tool_registry` of src/app/mcp/server.py) is an insertion-ordered dict
from tool name to its entry; the per-conversation `defaultdict(int)`
`tool_failure_counts` is a total function `String → Nat`. -/

inductive ToolOutcome where
  | ret : String → ToolOutcome
  | exc : String → ToolOutcome

/-- One `tool_registry` entry: `{"name": ..., "description": ...,
"schema": ..., "function": ...}`.  The pydantic model is kept as the
JSON dictionary that `model_json_schema()` would produce for it; the
handler is the behaviour of `function` on the converted arguments. -/
structure ToolEntry where
  description : String
  schema : JSON
  run : Py → ToolOutcome

abbrev Registry := List (String × ToolEntry)

/-- Python substring test `needle in hay` on character lists. -/
def startsWithList (needle hay : List Char) : Bool :=
  match needle, hay with
  | [], _ => true
  | _ :: _, [] => false
  | a :: as, b :: bs => a == b && startsWithList as bs

def containsSub (needle hay : List Char) : Bool :=
  if startsWithList needle hay then true
  else
    match hay with
    | [] => false
    | _ :: bs => containsSub needle bs

/-- Line 154: `is_error = "error" in tool_result_str.lower() or "failed"
in tool_result_str.lower()`. -/
def isErrorResult (s : String) : Bool :=
  containsSub "error".data (strLower s).data || containsSub "failed".data (strLower s).data

/-- Lines 160-166: the escalated corrective instruction used once a
tool's post-increment failure count exceeds 2. -/
def escalatedMessage (toolName : String) : String :=
  "Error: The tool '" ++ toolName ++ "' has failed multiple times. " ++
  "Consider using a different approach or check the Salesforce API version. " ++
  "For SOQL queries, ensure you're using the correct endpoint format: " ++
  "'/services/data/v58.0/query' with params=\x7b'q': ' lan√ßamentoSELECT Id, Name FROM Account LIMIT 10'\x7d"

/-- Lines 168-173: the non-escalated corrective wrapper around the raw
error text. -/
def nonEscalatedMessage (raw : String) : String :=
  "Error: Tool call failed: '" ++ raw ++ "'. " ++
  "Re-evaluate the parameters and try again. " ++
  "Check API version, endpoint format, and parameter structure. " ++
  "For SOQL queries, ensure the 'q' parameter contains the query string."

/-- Line 179: the text used when the handler (or the registry lookup)
raised an exception. -/
def criticalErrorMessage (e : String) : String :=
  "Critical Error: An unexpected exception occurred while running the tool: " ++ e ++
  ". Check argument types and API endpoint format."

/-- `defaultdict(int)` update. -/
def updateCount (counts : String → Nat) (name : String) (n : Nat) : String → Nat :=
  fun k => if k = name then n else counts k

/-- Lines 143-183: dispatch of one requested tool call.  Returns the
result text reported into the conversation and the updated failure
counters.  A missing tool raises `ValueError` (line 146) and a raising
handler is caught the same way (line 177): both produce the critical
error text and leave the counters untouched.  A returned string is
classified by `isErrorResult`; on failure the counter is incremented and
the text replaced (escalated once the post-increment count exceeds 2);
on success the counter is reset to 0. -/
def dispatchCall (reg : Registry) (counts : String → Nat) (toolName : String)
    (args : PObj) : String × (String → Nat) :=
  let tool_args := convert_proto_to_dict args
  match reg.lookup toolName with
  | none => (criticalErrorMessage ("Tool '" ++ toolName ++ "' not found."), counts)
  | some entry =>
    match entry.run tool_args with
    | .exc e => (criticalErrorMessage e, counts)
    | .ret s =>
      if isErrorResult s then
        let c := counts toolName + 1
        let counts1 := updateCount counts toolName c
        if c > 2 then (escalatedMessage toolName, counts1)
        else (nonEscalatedMessage s, counts1)
      else (s, updateCount counts toolName 0)

/-- The per-iteration loop over all requested calls (lines 134-183),
collecting the reported texts in emission order. -/
def runCalls (reg : Registry) (counts : String → Nat) :
    List (String × PObj) → List String × (String → Nat)
  | [] => ([], counts)
  | (name, args) :: rest =>
    let r := dispatchCall reg counts name args
    let rr := runCalls reg r.2 rest
    (r.1 :: rr.1, rr.2)

example :
    (runCalls [("t", ⟨"d", .obj [], fun _ => .ret "error: x"⟩)] (fun _ => 0)
      [("t", .mapping []), ("t", .mapping []), ("t", .mapping []), ("t", .mapping [])]).1 =
    [nonEscalatedMessage "error: x", nonEscalatedMessage "error: x",
     escalatedMessage "t", escalatedMessage "t"] := rfl

/-! ## The bounded orchestration loop
(src/app/host/orchestrator.py, `process_user_query`, lines 77-202)

The LLM provider is abstracted as a script: iteration index ↦ outcome of
`model.generate_content`.  A response is either a raised provider
exception, a response with no candidates (or empty candidate content), or
candidate content made of parts (text parts and function-call parts). -/

inductive MsgPart where
  | text : String → MsgPart
  | funcCall : String → PObj → MsgPart

inductive ModelResult where
  | exc : String → ModelResult
  | noCandidates : ModelResult
  | content : List MsgPart → ModelResult

structure LoopEnv where
  script : Nat → ModelResult
  registry : Registry

/-- Lines 93-106: per-iteration construction of the tool declarations,
`_sanitize_schema` applied to each registered schema.  This happens
BEFORE the `try` of line 109, so an exception here propagates out of
`process_user_query`. -/
def buildDecls (reg : Registry) : Except String (List JSON) :=
  match reg with
  | [] => .ok []
  | (_, entry) :: rest =>
    match sanitize_schema entry.schema with
    | .error e => .error e
    | .ok s =>
      match buildDecls rest with
      | .error e => .error e
      | .ok ss => .ok (s :: ss)

/-- Line 117: the function calls of a candidate's parts, in emission
order. -/
def partsCalls (parts : List MsgPart) : List (String × PObj) :=
  parts.filterMap (fun p =>
    match p with
    | .funcCall name args => some (name, args)
    | .text _ => none)

def defaultCompletionMessage : String := "I have completed the requested tasks."

/-- Line 193: `[part.text for part in response.candidates[0].content.parts
if part.text]` — the non-empty text parts (a function-call part has the
falsy empty string as its `text`). -/
def extractTexts (parts : List MsgPart) : List String :=
  parts.filterMap (fun p =>
    match p with
    | .text s => if s = "" then none else some s
    | .funcCall _ _ => none)

/-- Lines 192-198: best-effort extraction of the final text from the last
model response: the non-empty text parts joined by newlines, defaulting
to the generic completion message (an empty-candidate response takes the
`IndexError` path to the same default). -/
def finalTextOfParts (parts : List MsgPart) : String :=
  let ft := String.intercalate "\n" (extractTexts parts)
  if ft = "" then defaultCompletionMessage else ft

def finalTextOf (last : Option (List MsgPart)) : String :=
  match last with
  | none => defaultCompletionMessage
  | some parts => finalTextOfParts parts

/-- The `for i in range(max_iterations)` loop (lines 90-190), with
`fuel` the remaining iterations and `i` the next iteration index.  The
returned `Nat` counts the model-completion calls made.  `Except.error`
models an exception escaping `process_user_query` (only possible in
`buildDecls`, which runs outside the `try`); a provider exception is
caught by line 188 and returned as text; dispatch failures are handled
inside `dispatchCall`. -/
def orchLoop (env : LoopEnv) : Nat → Nat → (String → Nat) → Option (List MsgPart) →
    Except String (String × Nat)
  | i, 0, _, last => .ok (finalTextOf last, i)
  | i, fuel + 1, counts, _last =>
    match buildDecls env.registry with
    | .error e => .error e
    | .ok _ =>
      match env.script i with
      | .exc e => .ok ("An error occurred while processing your request: " ++ e, i + 1)
      | .noCandidates => .ok (defaultCompletionMessage, i + 1)
      | .content parts =>
        match partsCalls parts with
        | [] => .ok (finalTextOfParts parts, i + 1)
        | calls =>
          let r := runCalls env.registry counts calls
          orchLoop env (i + 1) fuel r.2 (some parts)

/-- Body of `process_user_query`; kept separate so the query argument's
irrelevance to the model is syntactically evident. -/
def process_user_query_aux (env : LoopEnv) (_query : String) :
    Except String (String × Nat) :=
  orchLoop env 0 20 (fun _ => 0) none

/-- `process_user_query(query)` (lines 77-202): `max_iterations = 20`,
failure counters start at zero, no last response yet.  The `query` seeds
the history, which the pure model does not otherwise consume (the
script already fixes the provider's behaviour). -/
def process_user_query (env : LoopEnv) (query : String) : Except String (String × Nat) :=
  process_user_query_aux env query

/-! ## Claims C1, C8, C4 (failure policy of tool dispatch) -/

/-- Claim C1: for every tool name within one conversation, each tool-call
result classified as a failure increments that tool's consecutive-failure
counter, and whenever the post-increment count exceeds 2, the result text
reported into the conversation is the escalated corrective instruction
rather than the raw error text; in particular, after exactly 3
consecutive failures of a tool, the 4th consecutive failure's reported
text is the escalated corrective message. -/
theorem c1_failure_escalation (reg : Registry) (toolName : String) (entry : ToolEntry)
    (hreg : reg.lookup toolName = some entry)
    (hfail : ∀ a : PObj, ∃ s, entry.run (convert_proto_to_dict a) = .ret s ∧
      isErrorResult s = true) :
    (∀ (counts : String → Nat) (a : PObj),
      (dispatchCall reg counts toolName a).2 toolName = counts toolName + 1) ∧
    (∀ (counts : String → Nat) (a : PObj), 2 < counts toolName + 1 →
      (dispatchCall reg counts toolName a).1 = escalatedMessage toolName) ∧
    (∀ a : PObj,
      (runCalls reg (fun _ => 0)
        [(toolName, a), (toolName, a), (toolName, a), (toolName, a)]).1.getLast?
        = some (escalatedMessage toolName)) := by
  have hkey : ∀ (counts : String → Nat) (a : PObj) (s : String),
      entry.run (convert_proto_to_dict a) = .ret s → isErrorResult s = true →
      dispatchCall reg counts toolName a =
        (if counts toolName + 1 > 2 then escalatedMessage toolName
          else nonEscalatedMessage s,
         updateCount counts toolName (counts toolName + 1)) := by
    intro counts a s hs herr
    simp only [dispatchCall, hreg, hs, herr]
    by_cases hc : counts toolName + 1 > 2
    · simp [hc]
    · simp [hc]
  refine ⟨?_, ?_, ?_⟩
  · intro counts a
    obtain ⟨s, hs, herr⟩ := hfail a
    rw [hkey counts a s hs herr]
    simp [updateCount]
  · intro counts a hgt
    obtain ⟨s, hs, herr⟩ := hfail a
    rw [hkey counts a s hs herr]
    simp [if_pos hgt]
  · intro a
    obtain ⟨s, hs, herr⟩ := hfail a
    have hkeyA : ∀ counts : String → Nat, dispatchCall reg counts toolName a =
        (if counts toolName + 1 > 2 then escalatedMessage toolName
          else nonEscalatedMessage s,
         updateCount counts toolName (counts toolName + 1)) :=
      fun counts => hkey counts a s hs herr
    simp [runCalls, hkeyA, updateCount]

def c1Entry : ToolEntry := ⟨"d", .obj [], fun _ => .ret "error: boom"⟩

def c1Reg : Registry := [("t", c1Entry)]

theorem c1_failure_escalation_witness :
    (dispatchCall c1Reg (fun _ => 0) "t" (.mapping [])).2 "t" = 1 ∧
    (dispatchCall c1Reg (fun _ => 3) "t" (.mapping [])).1 = escalatedMessage "t" ∧
    (runCalls c1Reg (fun _ => 0)
      [("t", .mapping []), ("t", .mapping []), ("t", .mapping []), ("t", .mapping [])]).1.getLast?
      = some (escalatedMessage "t") := by
  have h := c1_failure_escalation c1Reg "t" c1Entry rfl
    (fun _ => ⟨"error: boom", rfl, rfl⟩)
  exact ⟨h.1 (fun _ => 0) (.mapping []), h.2.1 (fun _ => 3) (.mapping []) (by decide),
    h.2.2 (.mapping [])⟩

/-- Claim C8: for every tool name within one conversation, a tool-call
result classified as a success resets that tool's consecutive-failure
counter to zero, so a single failure immediately following any number of
prior consecutive failures and one success is reported with the
non-escalated error text, not yet the escalated corrective message. -/
theorem c8_success_resets (reg : Registry) (toolName : String) (entry : ToolEntry)
    (hreg : reg.lookup toolName = some entry) :
    (∀ (counts : String → Nat) (a : PObj) (s : String),
      entry.run (convert_proto_to_dict a) = .ret s → isErrorResult s = false →
      (dispatchCall reg counts toolName a).2 toolName = 0) ∧
    (∀ (counts : String → Nat) (aS aF : PObj) (sS sF : String),
      entry.run (convert_proto_to_dict aS) = .ret sS → isErrorResult sS = false →
      entry.run (convert_proto_to_dict aF) = .ret sF → isErrorResult sF = true →
      (dispatchCall reg (dispatchCall reg counts toolName aS).2 toolName aF).1
        = nonEscalatedMessage sF) := by
  have hsucc : ∀ (counts : String → Nat) (a : PObj) (s : String),
      entry.run (convert_proto_to_dict a) = .ret s → isErrorResult s = false →
      dispatchCall reg counts toolName a = (s, updateCount counts toolName 0) := by
    intro counts a s hs herr
    simp only [dispatchCall, hreg, hs, herr]
    rfl
  refine ⟨?_, ?_⟩
  · intro counts a s hs herr
    rw [hsucc counts a s hs herr]
    simp [updateCount]
  · intro counts aS aF sS sF hsS herrS hsF herrF
    rw [hsucc counts aS sS hsS herrS]
    simp only [dispatchCall, hreg, hsF, herrF]
    have hc : updateCount counts toolName 0 toolName + 1 = 1 := by
      simp [updateCount]
    rw [hc]
    norm_num

def c8Entry : ToolEntry :=
  ⟨"d", .obj [], fun v =>
    match v with
    | .dict [] => .ret "ok"
    | _ => .ret "error: x"⟩

def c8Reg : Registry := [("t", c8Entry)]

theorem c8_success_resets_witness :
    (dispatchCall c8Reg (fun _ => 3) "t" (.mapping [])).2 "t" = 0 ∧
    (dispatchCall c8Reg (dispatchCall c8Reg (fun _ => 3) "t" (.mapping [])).2 "t"
      PObj.vNull).1 = nonEscalatedMessage "error: x" := by
  have h := c8_success_resets c8Reg "t" c8Entry rfl
  exact ⟨h.1 (fun _ => 3) (.mapping []) "ok" rfl rfl,
    h.2 (fun _ => 3) (.mapping []) PObj.vNull "ok" "error: x" rfl rfl rfl rfl⟩

/-- Claim C4 (counterexample): a requested tool absent from the registry
does NOT increment that tool's failure counter — the `ValueError` of line
146 is caught by the `except` of line 177, which produces the critical
error text and never touches `tool_failure_counts`; likewise a raising
handler bypasses the counter and the escalation policy (here a 3rd
consecutive problem that would escalate had it been an error-flagged
string). -/
theorem c4_counterexample :
    (dispatchCall [] (fun _ => 0) "foo" (.mapping [])).1
      = criticalErrorMessage "Tool 'foo' not found." ∧
    (dispatchCall [] (fun _ => 0) "foo" (.mapping [])).2 "foo" = 0 ∧
    (dispatchCall [("t", ⟨"d", .obj [], fun _ => .exc "boom"⟩)] (fun _ => 2) "t"
      (.mapping [])).1 = criticalErrorMessage "boom" ∧
    (dispatchCall [("t", ⟨"d", .obj [], fun _ => .exc "boom"⟩)] (fun _ => 2) "t"
      (.mapping [])).2 "t" = 2 :=
  ⟨rfl, rfl, rfl, rfl⟩

/-- Claim C4 (amended): a requested tool absent from the registry, and a
handler that raises, are both converted into a tool-result error turn
carrying the critical error text, but neither touches the failing tool's
consecutive-failure counter: only an error-flagged string returned by a
successfully invoked handler is counted and subject to the 2-strike
escalation policy. -/
theorem c4_exception_paths_bypass_counter (reg : Registry) (counts : String → Nat)
    (toolName : String) (a : PObj) :
    (reg.lookup toolName = none →
      dispatchCall reg counts toolName a
        = (criticalErrorMessage ("Tool '" ++ toolName ++ "' not found."), counts)) ∧
    (∀ (entry : ToolEntry) (e : String), reg.lookup toolName = some entry →
      entry.run (convert_proto_to_dict a) = .exc e →
      dispatchCall reg counts toolName a = (criticalErrorMessage e, counts)) := by
  constructor
  · intro h
    simp [dispatchCall, h]
  · intro entry e h1 h2
    simp [dispatchCall, h1, h2]

theorem c4_exception_paths_bypass_counter_witness :
    dispatchCall [] (fun _ => 1) "foo" (.mapping [])
      = (criticalErrorMessage "Tool 'foo' not found.", fun _ => 1) :=
  (c4_exception_paths_bypass_counter [] (fun _ => 1) "foo" (.mapping [])).1 rfl

/-! ## Claims C3 and C6 (boundary behaviour of the loop) -/

def c3BadRegistry : Registry :=
  [("t", ⟨"d", .obj [("anyOf", .arr [.num 5])], fun _ => .ret "ok"⟩)]

def c3Env : LoopEnv := ⟨fun _ => .noCandidates, c3BadRegistry⟩

/-- Claim C3 (counterexample): `process_user_query` CAN raise past its
boundary.  The tool declarations are built (lines 93-106) before the
`try` of line 109, so an exception raised there — here `_sanitize_schema`
hitting `item.get` on a non-dict `anyOf` branch of a registered schema —
propagates out instead of resolving to a text answer. -/
theorem c3_counterexample :
    process_user_query c3Env "list accounts"
      = .error "AttributeError: 'int' object has no attribute 'get'" := rfl

theorem orchLoop_total (env : LoopEnv) (ds : List JSON)
    (hbuild : buildDecls env.registry = .ok ds) :
    ∀ (fuel i : Nat) (counts : String → Nat) (last : Option (List MsgPart)),
      ∃ t n, orchLoop env i fuel counts last = .ok (t, n) := by
  intro fuel
  induction fuel with
  | zero => intro i counts last; exact ⟨_, _, rfl⟩
  | succ fuel ih =>
    intro i counts last
    cases hs : env.script i with
    | exc e =>
      refine ⟨"An error occurred while processing your request: " ++ e, i + 1, ?_⟩
      simp only [orchLoop, hbuild, hs]
    | noCandidates =>
      refine ⟨defaultCompletionMessage, i + 1, ?_⟩
      simp only [orchLoop, hbuild, hs]
    | content parts =>
      cases hc : partsCalls parts with
      | nil =>
        refine ⟨finalTextOfParts parts, i + 1, ?_⟩
        simp only [orchLoop, hbuild, hs, hc]
      | cons c rest =>
        obtain ⟨t, n, ht⟩ := ih (i + 1) (runCalls env.registry counts (c :: rest)).2 (some parts)
        refine ⟨t, n, ?_⟩
        simp only [orchLoop, hbuild, hs, hc]
        exact ht

/-- Claim C3 (amended): provided the per-turn construction of the tool
declarations from the registry succeeds, `process_user_query` never
raises: the provider-completion failure (caught at line 188) and every
tool-dispatch failure resolve to a returned text answer.  Exceptions
during declaration building itself (lines 93-106, outside the `try`)
propagate past the boundary. -/
theorem c3_no_raise_given_decls_ok (env : LoopEnv) (ds : List JSON) (query : String)
    (hbuild : buildDecls env.registry = .ok ds) :
    ∃ t n, process_user_query env query = .ok (t, n) := by
  obtain ⟨t, n, h⟩ := orchLoop_total env ds hbuild 20 0 (fun _ => 0) none
  exact ⟨t, n, h⟩

def c3GoodEnv : LoopEnv :=
  ⟨fun _ => .content [.text "done"],
   [("t", ⟨"d", .obj [("type", .str "string")], fun _ => .ret "ok"⟩)]⟩

theorem c3_no_raise_given_decls_ok_witness :
    ∃ t n, process_user_query c3GoodEnv "hello" = .ok (t, n) :=
  c3_no_raise_given_decls_ok c3GoodEnv [JSON.obj [("type", JSON.str "STRING")]] "hello" rfl

theorem finalTextOfParts_ne_empty (parts : List MsgPart) :
    finalTextOfParts parts ≠ "" := by
  intro h
  simp only [finalTextOfParts] at h
  split at h
  · exact absurd h (by decide)
  · rename_i hne
    exact hne h

theorem orchLoop_all_calls (env : LoopEnv) (ds : List JSON)
    (hbuild : buildDecls env.registry = .ok ds) :
    ∀ (fuel i : Nat) (counts : String → Nat) (last : Option (List MsgPart)),
      0 < fuel →
      (∀ j, i ≤ j → j < i + fuel →
        ∃ parts, env.script j = .content parts ∧ partsCalls parts ≠ []) →
      ∃ partsL, env.script (i + fuel - 1) = .content partsL ∧
        orchLoop env i fuel counts last = .ok (finalTextOfParts partsL, i + fuel) := by
  intro fuel
  induction fuel with
  | zero =>
    intro i counts last h0
    exact absurd h0 (by omega)
  | succ fuel ih =>
    intro i counts last _ hscript
    obtain ⟨parts, hp, hc⟩ := hscript i (le_refl i) (by omega)
    simp only [orchLoop, hbuild, hp]
    cases fuel with
    | zero =>
      cases hpc : partsCalls parts with
      | nil => exact absurd hpc hc
      | cons c rest =>
        refine ⟨parts, ?_, ?_⟩
        · simpa using hp
        · rfl
    | succ fuel' =>
      cases hpc : partsCalls parts with
      | nil => exact absurd hpc hc
      | cons c rest =>
        obtain ⟨partsL, hL1, hL2⟩ :=
          ih (i + 1) (runCalls env.registry counts (c :: rest)).2 (some parts) (by omega)
            (fun j h1 h2 => hscript j (by omega) (by omega))
        refine ⟨partsL, ?_, ?_⟩
        · have harith : i + (fuel' + 1 + 1) - 1 = i + 1 + (fuel' + 1) - 1 := by omega
          rw [harith]
          exact hL1
        · have harith : i + (fuel' + 1 + 1) = i + 1 + (fuel' + 1) := by omega
          rw [harith]
          exact hL2

/-- Claim C6: with `max_iterations = 20` and a model response that always
requests a (valid, registered) tool call, the orchestration loop
terminates after exactly 20 iterations — 20 model-completion calls — and
returns a non-empty fallback text: the best-effort extraction from the
last model response, which is the generic completion message whenever no
text is extractable from it.  It never loops indefinitely. -/
theorem c6_budget_exhaustion (env : LoopEnv) (ds : List JSON) (query : String)
    (hbuild : buildDecls env.registry = .ok ds)
    (hscript : ∀ j, j < 20 → ∃ parts, env.script j = .content parts ∧
      partsCalls parts ≠ [] ∧
      ∀ c ∈ partsCalls parts, (env.registry.lookup c.1).isSome) :
    ∃ partsL, env.script 19 = .content partsL ∧
      process_user_query env query = .ok (finalTextOfParts partsL, 20) ∧
      finalTextOfParts partsL ≠ "" ∧
      (extractTexts partsL = [] → finalTextOfParts partsL = defaultCompletionMessage) := by
  obtain ⟨partsL, hL1, hL2⟩ :=
    orchLoop_all_calls env ds hbuild 20 0 (fun _ => 0) none (by omega)
      (fun j h1 h2 => by
        obtain ⟨parts, hc1, hc2, _⟩ := hscript j (by omega)
        exact ⟨parts, hc1, hc2⟩)
  refine ⟨partsL, by simpa using hL1, by simpa using hL2, finalTextOfParts_ne_empty partsL, ?_⟩
  intro h0
  simp only [finalTextOfParts, h0]
  rfl

def c6Env : LoopEnv :=
  ⟨fun _ => .content [.funcCall "t" (.mapping [])],
   [("t", ⟨"d", .obj [("type", .str "string")], fun _ => .ret "ok"⟩)]⟩

theorem c6_budget_exhaustion_witness :
    ∃ partsL, c6Env.script 19 = .content partsL ∧
      process_user_query c6Env "q" = .ok (finalTextOfParts partsL, 20) ∧
      finalTextOfParts partsL ≠ "" ∧
      (extractTexts partsL = [] → finalTextOfParts partsL = defaultCompletionMessage) :=
  c6_budget_exhaustion c6Env [JSON.obj [("type", JSON.str "STRING")]] "q" rfl
    (fun j _ =>
      ⟨[.funcCall "t" (.mapping [])], rfl, by simp [partsCalls],
        fun c hc => by
          simp [partsCalls] at hc
          rw [hc]
          rfl⟩)

/-! ## Dynamic capability synthesis
(`create_python_tool_for_salesforce`, src/app/mcp/tools/dynamic_tools.py,
lines 207-321, and `add_tool_to_registry`, src/app/mcp/server.py)

`exec` of the submitted source is Python's evaluator and is abstracted as
its outcome: a `SyntaxError`, another exception, or the resulting
`local_scope` bindings in definition order.  A `function` binding is one
for which `inspect.isfunction(val)` holds; it carries the `ToolEntry`
that `add_tool_to_registry` would build for it (docstring parsing and
pydantic schema generation are outside the claims). -/

inductive Binding where
  | function : ToolEntry → Binding
  | value : Binding

inductive ExecOutcome where
  | synErr : Nat → String → String → ExecOutcome
  | exc : String → ExecOutcome
  | ok : List (String × Binding) → ExecOutcome

/-- Replacement of the entry at a key, position preserved. -/
def replaceEntry (name : String) (entry : ToolEntry) : Registry → Registry
  | [] => []
  | (k, v) :: rest =>
    if k = name then (name, entry) :: replaceEntry name entry rest
    else (k, v) :: replaceEntry name entry rest

/-- `tool_registry[tool_name] = {...}`: Python dict assignment replaces
an existing key in place and appends a new key at the end. -/
def add_tool_to_registry (reg : Registry) (name : String) (entry : ToolEntry) : Registry :=
  if (reg.lookup name).isSome then replaceEntry name entry reg
  else reg ++ [(name, entry)]

/-- Line 290: `next((key for key, val in local_scope.items() if
inspect.isfunction(val)), None)` — the FIRST function binding, if any. -/
def firstFunction : List (String × Binding) → Option (String × ToolEntry)
  | [] => none
  | (k, .function entry) :: _ => some (k, entry)
  | _ :: rest => firstFunction rest

def synthesisSuccessMessage (name : String) : String :=
  "✅ Successfully defined and registered new tool: '" ++ name ++
  "'. You may now call this tool to complete the task."

def definitionFailedMessage (e code : String) : String :=
  "❌ Failed to define the new tool. Error: " ++ e ++ "\nFull code:\n" ++ code ++
  "\nGUIDANCE: Ensure the code defines a single function with a docstring, " ++
  "uses allowed imports (json, get_salesforce_connection), " ++
  "starts with a Salesforce connection check, and includes a try/except block."

def synErrorMessage (lineno : Nat) (msg : String) (text : String) : String :=
  "❌ Syntax Error in generated code at line " ++ toString lineno ++ ": " ++ msg ++
  "\nCode snippet: " ++ text ++
  "\nGUIDANCE: Check the syntax of your Python code. Ensure proper indentation and valid Python syntax."

/-- Lines 273-321: execute the submitted code, take the first function
binding of the local scope (raising `ValueError` when there is none,
caught by the generic `except` into the definition-failed text), register
it, check it landed in the registry, and report.  Returns the result text
and the (possibly mutated) registry. -/
def create_python_tool_for_salesforce (reg : Registry) (function_code : String)
    (execResult : ExecOutcome) : String × Registry :=
  match execResult with
  | .synErr lineno msg text => (synErrorMessage lineno msg text, reg)
  | .exc e => (definitionFailedMessage e function_code, reg)
  | .ok local_scope =>
    match firstFunction local_scope with
    | none =>
      (definitionFailedMessage "No function was defined in the provided code string."
        function_code, reg)
    | some (new_func_name, new_func) =>
      let reg1 := add_tool_to_registry reg new_func_name new_func
      if (reg1.lookup new_func_name).isSome then
        (synthesisSuccessMessage new_func_name, reg1)
      else
        (definitionFailedMessage
          ("Tool '" ++ new_func_name ++ "' was not successfully registered in tool_registry.")
          function_code, reg1)

theorem lookup_replaceEntry (name : String) (entry : ToolEntry) :
    ∀ reg : Registry, (reg.lookup name).isSome →
      ((replaceEntry name entry reg).lookup name) = some entry := by
  intro reg
  induction reg with
  | nil => intro h; simp [List.lookup] at h
  | cons kv tl ih =>
    obtain ⟨k, v⟩ := kv
    intro h
    by_cases hk : k = name
    · simp only [replaceEntry, if_pos hk, List.lookup, beq_self_eq_true]
    · have hbk : (name == k) = false := by
        cases hbe : (name == k : Bool) with
        | true => exact absurd (eq_of_beq hbe).symm hk
        | false => rfl
      simp only [List.lookup, hbk] at h
      simp only [replaceEntry, if_neg hk, List.lookup, hbk]
      exact ih h

theorem lookup_append_self (name : String) (entry : ToolEntry) :
    ∀ reg : Registry, reg.lookup name = none →
      ((reg ++ [(name, entry)]).lookup name) = some entry := by
  intro reg
  induction reg with
  | nil => intro _; simp [List.lookup]
  | cons kv tl ih =>
    obtain ⟨k, v⟩ := kv
    intro h
    cases hbk : (name == k : Bool) with
    | true => simp only [List.lookup, hbk] at h; cases h
    | false =>
      simp only [List.lookup, hbk] at h
      simp only [List.cons_append, List.lookup, hbk]
      exact ih h

theorem lookup_add_tool (reg : Registry) (name : String) (entry : ToolEntry) :
    ((add_tool_to_registry reg name entry).lookup name) = some entry := by
  unfold add_tool_to_registry
  by_cases h : (reg.lookup name).isSome
  · rw [if_pos h]
    exact lookup_replaceEntry name entry reg h
  · rw [if_neg h]
    apply lookup_append_self
    cases hx : reg.lookup name with
    | none => rfl
    | some v => rw [hx] at h; simp at h

def c2EntryF : ToolEntry := ⟨"f", .obj [], fun _ => .ret "ok"⟩

def c2EntryG : ToolEntry := ⟨"g", .obj [], fun _ => .ret "ok"⟩

/-- Claim C2 (counterexample): submitting source that defines TWO
functions does not fail with a SynthesisError: `next(...)` silently
selects the first function binding, registers it, and reports success;
lookup of the first name then succeeds. -/
theorem c2_counterexample :
    (create_python_tool_for_salesforce [] "def f(): ...\ndef g(): ..."
        (.ok [("f", .function c2EntryF), ("g", .function c2EntryG)])).1
      = synthesisSuccessMessage "f" ∧
    ((create_python_tool_for_salesforce [] "def f(): ...\ndef g(): ..."
        (.ok [("f", .function c2EntryF), ("g", .function c2EntryG)])).2.lookup "f").isSome
      = true ∧
    synthesisSuccessMessage "f"
      ≠ definitionFailedMessage "No function was defined in the provided code string."
          "def f(): ...\ndef g(): ..." :=
  ⟨rfl, rfl, by decide⟩

/-- Claim C2 (amended): source whose execution defines zero functions
fails with the `SynthesisError` text (`no function defined`); source
defining one or MORE functions does not fail — the first-defined function
is registered (later ones are ignored) and a registry lookup by its name
succeeds afterwards. -/
theorem c2_first_function_registered (reg : Registry) (code : String)
    (scope : List (String × Binding)) :
    (firstFunction scope = none →
      create_python_tool_for_salesforce reg code (.ok scope)
        = (definitionFailedMessage "No function was defined in the provided code string."
            code, reg)) ∧
    (∀ name entry, firstFunction scope = some (name, entry) →
      (create_python_tool_for_salesforce reg code (.ok scope)).1
          = synthesisSuccessMessage name ∧
      ((create_python_tool_for_salesforce reg code (.ok scope)).2.lookup name)
          = some entry) := by
  constructor
  · intro h
    simp [create_python_tool_for_salesforce, h]
  · intro name entry h
    have hadd := lookup_add_tool reg name entry
    have hsome : ((add_tool_to_registry reg name entry).lookup name).isSome = true := by
      rw [hadd]; rfl
    simp only [create_python_tool_for_salesforce, h, hsome, if_true]
    exact ⟨by trivial, hadd⟩

theorem c2_first_function_registered_witness :
    create_python_tool_for_salesforce [] "pass" (.ok [])
      = (definitionFailedMessage "No function was defined in the provided code string."
          "pass", []) ∧
    ((create_python_tool_for_salesforce [] "def f(): ..."
        (.ok [("f", .function c2EntryF)])).2.lookup "f") = some c2EntryF :=
  ⟨(c2_first_function_registered [] "pass" []).1 rfl,
   ((c2_first_function_registered [] "def f(): ..." [("f", .function c2EntryF)]).2
      "f" c2EntryF rfl).2⟩

/-! ## `execute_soql_query` and the CRM-connection guard
(src/app/mcp/tools/dynamic_tools.py, lines 24-67;
`get_salesforce_connection`, src/app/services/salesforce.py) -/

abbrev SFRecord := List (String × Py)

inductive QueryOutcome where
  | res : List SFRecord → QueryOutcome
  | exc : String → QueryOutcome

/-- What `get_salesforce_connection()` returns: the per-thread
`Salesforce` object (modelled by its `query_all` behaviour), or the
Python `None` stored after a failed connection attempt. -/
inductive SFConnection where
  | conn : (String → QueryOutcome) → SFConnection
  | nullConn : SFConnection

/-- In Python, `isinstance(x, object)` is `True` for EVERY value —
including `None` — so the guard `if not isinstance(sf, object)` of line
45 can never fire. -/
def isinstance_of_object (_sf : SFConnection) : Bool := true

def connectionErrorMessage (details : String) : String :=
  "❌ Error: Could not establish connection to Salesforce. Details: " ++ details

/-- Python `f"{sf}"`. -/
def reprConn : SFConnection → String
  | .conn _ => "<simple_salesforce.api.Salesforce object>"
  | .nullConn => "None"

/-- `sf.query_all(query)`: on the `None` value this raises
`AttributeError`. -/
def queryAllOn (sf : SFConnection) (query : String) : QueryOutcome :=
  match sf with
  | .conn f => f query
  | .nullConn => .exc "'NoneType' object has no attribute 'query_all'"

/-- Lines 60-67: `"❌ SOQL Query Error: {e}"` plus guidance appended for
`MALFORMED_QUERY` / `INVALID_FIELD` substrings of the exception text. -/
def soqlErrorMessage (e : String) : String :=
  let base := "❌ SOQL Query Error: " ++ e
  if containsSub "MALFORMED_QUERY".data e.data then
    base ++ "\nGUIDANCE: The SOQL query syntax is incorrect. Please check your SELECT statement, object/field names, and WHERE clause."
  else if containsSub "INVALID_FIELD".data e.data then
    base ++ "\nGUIDANCE: One or more fields in your query are invalid. Verify the API names of the fields for the specified object."
  else base

/-- Lines 24-67, with `json.dumps(records, indent=2, default=str)`
abstracted as `dumps` (its exact text plays no role in the claims). -/
def execute_soql_query (dumps : List SFRecord → String) (getConn : SFConnection)
    (query : String) : String :=
  let sf := getConn
  if ¬ (isinstance_of_object sf = true) then
    connectionErrorMessage (reprConn sf)
  else
    match queryAllOn sf query with
    | .exc e => soqlErrorMessage e
    | .res records =>
      if records.isEmpty then "✅ Query executed successfully: No records found."
      else dumps (records.map (fun r => r.filter (fun kv => kv.1 != "attributes")))

/-- Claim C10 (code bug): the non-object check is vacuous —
`isinstance(sf, object)` holds of every Python value, `None` included —
so when the accessor returns `None` after a failed connection attempt the
handler does NOT return the connection-failure error string: it proceeds,
calls `query_all` on `None`, and returns the `AttributeError` text
wrapped as a SOQL query error. -/
theorem c10_connection_guard_never_fires :
    (∀ sf : SFConnection, isinstance_of_object sf = true) ∧
    execute_soql_query (fun _ => "") SFConnection.nullConn "SELECT Id FROM Account"
      = soqlErrorMessage "'NoneType' object has no attribute 'query_all'" ∧
    execute_soql_query (fun _ => "") SFConnection.nullConn "SELECT Id FROM Account"
      ≠ connectionErrorMessage "None" := by
  refine ⟨fun _ => rfl, rfl, ?_⟩
  decide
